import Mathlib

/-!
Verification of the `forest` session-lifecycle manager (src/src/main.rs)
against its natural-language specification.

The Rust program is embedded shallowly: pure helpers (`sanitize_podman_name`,
`valid_podman_name`, the path arithmetic of `open_session`) become Lean
functions over `String`/`List`; the effectful command handlers
(`ensure_git_setup`, `open_session`, `kill_session`, `precheck`,
`load_config`) become explicit state-passing functions over an `Env`
(the immutable outside world: which executables exist, what the git
repository looks like, what the external tools answer) and an `St`
(the mutable external state: branches, directories, container sessions),
returning `Except Err (St × List Ev)` where the `Ev` trace records the
externally visible actions the program performed.
-/

/-! ### Characters and the name sanitizer (src/src/main.rs lines 23-52) -/

/-- Rust `char::is_ascii_alphanumeric`: `A`-`Z`, `a`-`z` or `0`-`9`. -/
def isAsciiAlphanumeric (c : Char) : Bool :=
  (65 ≤ c.toNat && c.toNat ≤ 90) || (97 ≤ c.toNat && c.toNat ≤ 122) ||
    (48 ≤ c.toNat && c.toNat ≤ 57)

/-- The character class kept by the sanitizer and accepted (after the first
position) by the validator: ASCII alphanumeric, `_`, `.` or `-`. -/
def allowedChar (c : Char) : Bool :=
  isAsciiAlphanumeric c || c == '_' || c == '.' || c == '-'

/-- The `map` in `sanitize_podman_name`: every character outside the allowed
class is replaced by `-`. -/
def sanitizeChars (cs : List Char) : List Char :=
  cs.map (fun c => if allowedChar c then c else '-')

/-- Embeds `sanitize_podman_name` (main.rs lines 23-43): map each character,
then prepend `s` when the result is empty or starts with a
non-alphanumeric character. -/
def sanitize_podman_name (branch : String) : String :=
  match sanitizeChars branch.data with
  | [] => ⟨['s']⟩
  | c :: rest => if isAsciiAlphanumeric c then ⟨c :: rest⟩ else ⟨'s' :: c :: rest⟩

/-- Embeds `valid_podman_name` (main.rs lines 45-52): nonempty, first
character ASCII alphanumeric, remaining characters in the allowed class. -/
def valid_podman_name (name : String) : Bool :=
  match name.data with
  | [] => false
  | c :: rest => isAsciiAlphanumeric c && rest.all allowedChar

theorem allowedChar_sanitized (c : Char) :
    allowedChar (if allowedChar c then c else '-') = true := by
  by_cases h : allowedChar c = true
  · rw [if_pos h]; exact h
  · rw [if_neg h]; decide

theorem sanitizeChars_all_allowed (cs : List Char) :
    (sanitizeChars cs).all allowedChar = true := by
  induction cs with
  | nil => rfl
  | cons c cs ih =>
    simp only [sanitizeChars, List.map_cons, List.all_cons] at *
    rw [Bool.and_eq_true]
    exact ⟨allowedChar_sanitized c, ih⟩

theorem allowedChar_of_alphanumeric (c : Char)
    (h : isAsciiAlphanumeric c = true) : allowedChar c = true := by
  simp [allowedChar, h]

/-- C3: for every raw name (in particular any name containing characters
outside `[A-Za-z0-9_.-]`), the output of `sanitize_podman_name` passes
`valid_podman_name`: validation of the sanitizer's own output never fails. -/
theorem sanitize_output_always_valid (s : String) :
    valid_podman_name (sanitize_podman_name s) = true := by
  unfold sanitize_podman_name
  cases h : sanitizeChars s.data with
  | nil => rfl
  | cons c rest =>
    have hall : (sanitizeChars s.data).all allowedChar = true :=
      sanitizeChars_all_allowed s.data
    rw [h, List.all_cons, Bool.and_eq_true] at hall
    by_cases hc : isAsciiAlphanumeric c = true
    · simp only [hc, if_true, valid_podman_name]
      rw [Bool.and_eq_true]
      exact ⟨rfl, hall.2⟩
    · simp only [hc, if_false, Bool.false_eq_true, valid_podman_name]
      rw [Bool.and_eq_true]
      refine ⟨by decide, ?_⟩
      rw [List.all_cons, Bool.and_eq_true]
      exact ⟨hall.1, hall.2⟩

/-! ### Paths (`std::path::PathBuf` as used by the program)

A path is a flag saying whether it is absolute plus its list of nonempty
components. `Path::join` follows Rust semantics: joining an absolute path
replaces the receiver entirely; components are not normalized, so `.` and
`..` survive as components. Semantic containment on disk is judged after
normalizing `.`/`..`. -/

structure RPath where
  absolute : Bool
  comps : List String
deriving DecidableEq

/-- Split a character list on `/`, dropping empty segments (as Rust
`Path::components` collapses repeated separators). -/
def splitSlashAux : List Char → List Char → List String
  | [], acc => if acc = [] then [] else [⟨acc.reverse⟩]
  | c :: rest, acc =>
    if c = '/' then
      (if acc = [] then splitSlashAux rest []
       else ⟨acc.reverse⟩ :: splitSlashAux rest [])
    else splitSlashAux rest (c :: acc)

/-- Interpret a Rust `&str` as a path: absolute iff it starts with `/`. -/
def parsePath (s : String) : RPath :=
  ⟨s.data.head? == some '/', splitSlashAux s.data []⟩

/-- Rust `Path::join` with a string argument: an absolute argument replaces
the whole path, otherwise components are appended. -/
def RPath.joinStr (p : RPath) (s : String) : RPath :=
  let q := parsePath s
  if q.absolute then q else ⟨p.absolute, p.comps ++ q.comps⟩

/-- Render a path back to a string (used only to form command arguments). -/
def pathToString (p : RPath) : String :=
  (if p.absolute then "/" else "") ++ String.intercalate "/" p.comps

/-- Normalize `.` and `..` components to judge where a path points on disk. -/
def normAux : List String → List String → List String
  | acc, [] => acc.reverse
  | acc, d :: rest =>
    if d = "." then normAux acc rest
    else if d = ".." then normAux (acc.drop 1) rest
    else normAux (d :: acc) rest

def normComps (cs : List String) : List String := normAux [] cs

/-- `leadsTo r p` holds when component list `r` is an initial segment of `p`. -/
def leadsTo : List String → List String → Bool
  | [], _ => true
  | _ :: _, [] => false
  | a :: r, b :: p => a == b && leadsTo r p

/-- `child` points at or below `parent` on disk. -/
def semDesc (child parent : RPath) : Bool :=
  (child.absolute == parent.absolute) &&
    leadsTo (normComps parent.comps) (normComps child.comps)

/-- The two paths point at the same place on disk. -/
def semEq (p q : RPath) : Bool :=
  (p.absolute == q.absolute) && (normComps p.comps == normComps q.comps)

/-- `child` points strictly below `parent` on disk. -/
def semDescStrict (child parent : RPath) : Bool :=
  semDesc child parent && !semEq child parent

/-! ### The worktree path computation (main.rs lines 247-249) -/

/-- `<home>/worktrees/<repository name>` as computed at main.rs line 248. -/
def worktreeRootOf (home repoName : String) : RPath :=
  ((parsePath home).joinStr "worktrees").joinStr repoName

/-- `<worktree root>/<raw session name>` as computed at main.rs line 249. -/
def worktreePathOf (home repoName name : String) : RPath :=
  (worktreeRootOf home repoName).joinStr name

theorem normAux_append (a : List String) :
    ∀ (acc : List String) (b : List String),
      normAux acc (a ++ b) = normAux ((normAux acc a).reverse) b := by
  induction a with
  | nil =>
    intro acc b
    simp [normAux]
  | cons d a ih =>
    intro acc b
    by_cases h1 : d = "."
    · simp only [List.cons_append, normAux, h1, if_true]
      exact ih acc b
    · by_cases h2 : d = ".."
      · simp only [List.cons_append, normAux, h1, h2, if_false, if_true]
        exact ih (acc.drop 1) b
      · simp only [List.cons_append, normAux, h1, h2, if_false]
        exact ih (d :: acc) b

theorem normAux_clean (b : List String)
    (hb : ∀ d ∈ b, d ≠ "." ∧ d ≠ "..") :
    ∀ acc : List String, normAux acc b = acc.reverse ++ b := by
  induction b with
  | nil => intro acc; simp [normAux]
  | cons d b ih =>
    intro acc
    have hd := hb d (by simp)
    have hb' : ∀ x ∈ b, x ≠ "." ∧ x ≠ ".." := fun x hx => hb x (by simp [hx])
    simp only [normAux, hd.1, hd.2, if_false]
    rw [ih hb' (d :: acc)]
    simp

theorem normComps_append_clean (a b : List String)
    (hb : ∀ d ∈ b, d ≠ "." ∧ d ≠ "..") :
    normComps (a ++ b) = normComps a ++ b := by
  unfold normComps
  rw [normAux_append a [] b, normAux_clean b hb]
  simp

theorem leadsTo_append (r s : List String) : leadsTo r (r ++ s) = true := by
  induction r with
  | nil => rfl
  | cons a r ih => simp [leadsTo, ih]

/-! ### The devcontainer descriptor (main.rs lines 263-284)

The program parses the descriptor JSON with `serde_json::Value` and only
ever queries the presence of the top-level `image` and `build` fields, so
the descriptor is embedded as exactly those fields. -/

structure BuildJson where
  dockerfile : Option String
  context : Option String
deriving DecidableEq

structure DevJson where
  image : Option String
  build : Option BuildJson
deriving DecidableEq

/-- The check at main.rs line 265: a descriptor is accepted when it has an
`image` field or a `build` field. -/
def descriptorOk (v : DevJson) : Bool := v.image.isSome || v.build.isSome

/-- The argument list of the `devcontainer build` invocation at main.rs
lines 270-273: only the workspace folder is passed. -/
def buildArgs (wp : RPath) : List String :=
  ["build", "--workspace-folder", pathToString wp]

/-! ### Configuration (main.rs lines 157-173) -/

structure Config where
  githuborg : Option String
deriving DecidableEq

/-- Rust `Config::default()`: no `githuborg`. -/
def Config.default : Config := ⟨none⟩

/-! ### The outside world

`Env` is the immutable part: which executables resolve on `PATH`, what the
git and hosting tools answer, the `HOME` variable, the devcontainer
descriptor that resolution finds, and the per-user configuration file.
`St` is the external mutable state the program acts on. Each external tool
invocation's outcome is drawn from `Env`; its state effect (modelled from
the spec's collaborator contracts in sections 4.4 and 6, since the external
tools are not part of this repository) is applied to `St` and recorded in
the `Ev` trace. -/

structure Env where
  gitInstalled : Bool
  repoRoot : Option RPath
  home : String
  branchCreateOk : String → Bool
  ghInstalled : Bool
  ghCreateOk : Bool
  devInstalled : Bool
  devBuildOk : Bool
  devUpOk : Bool
  worktreeAddOk : Bool
  devExecOk : Bool
  devDownResult : Bool → Bool
  devEnvExists : Bool
  descriptor : Option DevJson
  projDirs : Bool
  configFile : Option (Option Config)

structure St where
  branches : List String
  originRemote : Bool
  dirs : List RPath
  sessions : List String
  gitLinked : List RPath
deriving DecidableEq

inductive Ev where
  | branchCreated (b : String)
  | ghRepoCreated
  | dirCreated (p : RPath)
  | buildRun (args : List String)
  | sessionCreated (label : String)
  | sessionAttached (label : String)
  | worktreeAddRun (b : String)
  | execRun (label : String)
  | downRun (label : String)
deriving DecidableEq

inductive Err where
  | invalidSessionName (name : String)
  | spawnFailed (tool : String)
  | gitBranchFailed
  | ghCreateFailed
  | repoNameUnknown
  | devEnvMissing (e : String)
  | descriptorUnreadable
  | imageFieldMissing
  | devNotFound
  | devBuildFailed
  | devUpFailed
  | worktreeAddFailed
  | devExecFailed
  | devDownFailed
deriving DecidableEq

/-- Count occurrences of an event in a trace. -/
def countEv (e : Ev) : List Ev → Nat
  | [] => 0
  | x :: xs => (if x = e then 1 else 0) + countEv e xs

/-! ### ensure_git_setup (main.rs lines 54-128) -/

/-- Embeds `ensure_git_setup`. The `git rev-parse --show-toplevel` probe
returns `Ok(o)` with success only when git is installed and the invocation
directory is in a repository; every other outcome (spawn failure included)
takes the `_ => return Ok(())` arm. Then: create the branch if the
`show-ref` probe does not find it; then provision the `origin` remote via
`gh repo create` when it is missing and an organization is configured. -/
def ensure_git_setup (env : Env) (st : St) (config : Config) (branch : String) :
    Except Err (St × List Ev) :=
  if env.gitInstalled = false then .ok (st, [])
  else match env.repoRoot with
  | none => .ok (st, [])
  | some _ =>
    let afterBranch : Except Err (St × List Ev) :=
      if branch ∈ st.branches then .ok (st, [])
      else if env.branchCreateOk branch then
        .ok ({ st with branches := branch :: st.branches }, [Ev.branchCreated branch])
      else .error Err.gitBranchFailed
    match afterBranch with
    | .error e => .error e
    | .ok (st1, ev1) =>
      if st1.originRemote then .ok (st1, ev1)
      else match config.githuborg with
        | none => .ok (st1, ev1)
        | some _ =>
          if env.ghInstalled = false then .error (Err.spawnFailed "gh")
          else if env.ghCreateOk then
            .ok ({ st1 with originRemote := true }, ev1 ++ [Ev.ghRepoCreated])
          else .error Err.ghCreateFailed

/-! ### open_session (main.rs lines 223-363) -/

/-- The repository name step of `open_session` (lines 236-245): re-run
`rev-parse --show-toplevel` with `.output()?` (a spawn failure is now a
raw propagated error), take the stdout as a path (empty on failure), and
require its final component. -/
def repoNameStep (env : Env) : Except Err String :=
  if env.gitInstalled = false then .error (Err.spawnFailed "git")
  else
    let repoRootPath := match env.repoRoot with
      | some r => r
      | none => RPath.mk false []
    match repoRootPath.comps.getLast? with
    | none => .error Err.repoNameUnknown
    | some repoName => .ok repoName

/-- The `find_devcontainer` step (lines 175-203) restricted to what decides
control flow: with `--devcontainer-env <e>`, the named descriptor must
exist; otherwise a descriptor path is always produced (scaffolding one if
nothing exists). -/
def findDevStep (env : Env) (devEnvArg : Option String) : Except Err Unit :=
  match devEnvArg with
  | some e => if env.devEnvExists then .ok () else .error (Err.devEnvMissing e)
  | none => .ok ()

/-- The container-session part of `open_session` (lines 263-362): read and
check the descriptor, run `devcontainer build` when a `build` field is
present, run `devcontainer up` (modelled from the spec: the external tool
performs an idempotent existence check under the label, attaching when the
session already exists and creating it otherwise), register the git
worktree from inside the container unless the `.git` linkage file already
points into `/repo/.git/worktrees/`, and finally `devcontainer exec` an
interactive shell. Every `devcontainer` spawn failure maps to the distinct
`devNotFound` error (lines 274-280, 302-308, 331-337, 352-358). -/
def sessionUp (env : Env) (st : St) (podman : String) (name : String) (wp : RPath) :
    Except Err (St × List Ev) :=
  match env.descriptor with
  | none => .error Err.descriptorUnreadable
  | some v =>
    if descriptorOk v = false then .error Err.imageFieldMissing
    else
      let buildStep : Except Err (List Ev) :=
        if v.build.isSome then
          if env.devInstalled = false then .error Err.devNotFound
          else if env.devBuildOk then .ok [Ev.buildRun (buildArgs wp)]
          else .error Err.devBuildFailed
        else .ok []
      match buildStep with
      | .error e => .error e
      | .ok evB =>
        if env.devInstalled = false then .error Err.devNotFound
        else if env.devUpOk = false then .error Err.devUpFailed
        else
          let upPair : St × Ev :=
            if podman ∈ st.sessions then (st, Ev.sessionAttached podman)
            else ({ st with sessions := podman :: st.sessions }, Ev.sessionCreated podman)
          let wtStep : Except Err (St × List Ev) :=
            if wp ∈ upPair.1.gitLinked then .ok (upPair.1, [])
            else if env.devInstalled = false then .error Err.devNotFound
            else if env.worktreeAddOk then
              .ok ({ upPair.1 with gitLinked := wp :: upPair.1.gitLinked },
                   [Ev.worktreeAddRun name])
            else .error Err.worktreeAddFailed
          match wtStep with
          | .error e => .error e
          | .ok (st4, evW) =>
            if env.devInstalled = false then .error Err.devNotFound
            else if env.devExecOk then
              .ok (st4, evB ++ [upPair.2] ++ evW ++ [Ev.execRun podman])
            else .error Err.devExecFailed

/-- Embeds `open_session` (main.rs lines 223-363): git setup, sanitize and
validate the name, determine the repository name, compute the worktree
path and create its directory if absent, resolve the descriptor, then the
container-session steps. -/
def open_session (env : Env) (st : St) (name : String) (devEnvArg : Option String)
    (config : Config) : Except Err (St × List Ev) :=
  match ensure_git_setup env st config name with
  | .error e => .error e
  | .ok (st1, ev1) =>
    let podman := sanitize_podman_name name
    if valid_podman_name podman = false then .error (Err.invalidSessionName name)
    else match repoNameStep env with
    | .error e => .error e
    | .ok repoName =>
      let wp := worktreePathOf env.home repoName name
      let mk : St × List Ev :=
        if wp ∈ st1.dirs then (st1, ev1)
        else ({ st1 with dirs := wp :: st1.dirs }, ev1 ++ [Ev.dirCreated wp])
      match findDevStep env devEnvArg with
      | .error e => .error e
      | .ok _ =>
        match sessionUp env mk.1 podman name wp with
        | .error e => .error e
        | .ok (st5, ev5) => .ok (st5, mk.2 ++ ev5)

/-! ### kill_session (main.rs lines 365-386) -/

/-- Embeds `kill_session`: sanitize and validate, then a single
`devcontainer down --id-label name=<safe id>`; the external tool's exit
status may depend on whether a session exists under the label
(`env.devDownResult`), and on success the session is gone. -/
def kill_session (env : Env) (st : St) (name : String) : Except Err (St × List Ev) :=
  let podman := sanitize_podman_name name
  if valid_podman_name podman = false then .error (Err.invalidSessionName name)
  else if env.devInstalled = false then .error Err.devNotFound
  else if env.devDownResult (podman ∈ st.sessions) then
    .ok ({ st with sessions := st.sessions.erase podman }, [Ev.downRun podman])
  else .error Err.devDownFailed

/-! ### precheck and load_config (main.rs lines 162-173 and 411-457)

`command_exists` runs `<tool> --version` and reports success; for the model
a tool "exists" exactly when that probe succeeds, which is the same
executable-presence fact the other handlers consult. `env.configFile` is
`none` when the per-user file cannot be read, `some none` when it reads but
fails TOML parsing, and `some (some c)` when it parses to `c`;
`env.projDirs` is whether the platform configuration directory can be
determined at all. -/

inductive Problem where
  | toolMissing (tool : String)
  | configUnparsable
  | configMissing
  | noConfigDir
deriving DecidableEq

/-- The config-file checks of `precheck` (main.rs lines 423-438). -/
def configProblems (env : Env) : List Problem :=
  if env.projDirs then
    match env.configFile with
    | some (some _) => []
    | some none => [Problem.configUnparsable]
    | none => [Problem.configMissing]
  else [Problem.noConfigDir]

/-- Every problem `precheck` accumulates into its `errors` vector, in
program order: the three tool probes, then the config checks. -/
def precheckProblems (env : Env) : List Problem :=
  (if env.devInstalled then [] else [Problem.toolMissing "devcontainer"]) ++
  (if env.gitInstalled then [] else [Problem.toolMissing "git"]) ++
  (if env.ghInstalled then [] else [Problem.toolMissing "gh"]) ++
  configProblems env

/-- Embeds `precheck` (main.rs lines 411-457): succeed when the error
vector stays empty, otherwise fail once reporting the whole vector. -/
def precheck (env : Env) : Except (List Problem) Unit :=
  if precheckProblems env = [] then .ok () else .error (precheckProblems env)

/-- Embeds `load_config` (main.rs lines 162-173): total; an unreadable or
unparseable file and an undeterminable config directory all yield the
default configuration. -/
def load_config (env : Env) : Config :=
  if env.projDirs then
    match env.configFile with
    | some (some c) => c
    | some none => Config.default
    | none => Config.default
  else Config.default

/-! ### The descriptor resolution the spec describes (for claim C5) -/

inductive Descriptor where
  | image (reference : String)
  | build (dockerfile : RPath) (context : RPath)
deriving DecidableEq

/-- Modelled from the spec: the parsing contract of section 4.2, which the
code does not implement (`open_session` only tests field presence). If an
`image` field is present, produce `Image`; else if a `build` object is
present, require a `dockerfile` string (relative to the descriptor's
directory) and default the optional `context` to `"."` (also relative to
the descriptor's directory); else fail. Kept for comparison with the
code's behavior. -/
def resolveDescriptorSpec (dir : RPath) (v : DevJson) : Option Descriptor :=
  match v.image with
  | some i => some (.image i)
  | none =>
    match v.build with
    | some b =>
      match b.dockerfile with
      | some d => some (.build (dir.joinStr d) (dir.joinStr (b.context.getD ".")))
      | none => none
    | none => none

/-! ### Concrete worlds used by the closed theorems -/

/-- A healthy world: every tool installed and succeeding, an image-only
descriptor, inside repository `/r`, `HOME=/h`. -/
def baseEnv : Env :=
  { gitInstalled := true
    repoRoot := some (RPath.mk true ["r"])
    home := "/h"
    branchCreateOk := fun _ => true
    ghInstalled := true
    ghCreateOk := true
    devInstalled := true
    devBuildOk := true
    devUpOk := true
    worktreeAddOk := true
    devExecOk := true
    devDownResult := fun _ => true
    devEnvExists := true
    descriptor := some ⟨some "docker.io/library/ubuntu:latest", none⟩
    projDirs := true
    configFile := some (some ⟨none⟩) }

/-- The empty external state: no branches, no directories, no sessions,
with an `origin` remote already configured. -/
def st0 : St := ⟨[], true, [], [], []⟩

deriving instance DecidableEq for Except

/-- The same world, but the invoking directory is outside any git
repository: `git rev-parse --show-toplevel` exits non-zero. -/
def envNoRepo : Env := { baseEnv with repoRoot := none }

/-- C2: `ensure_git_setup` does treat the failed repository-root query as a
silent no-op, but `open_session` then re-runs the query unconditionally
(main.rs lines 236-245), takes the empty stdout as the repository root,
finds no final path component, and fails with "failed to determine repo
name" instead of proceeding to the container session operations. -/
theorem open_outside_repo_fails :
    ensure_git_setup envNoRepo st0 Config.default "exp" = .ok (st0, []) ∧
    open_session envNoRepo st0 "exp" none Config.default =
      .error Err.repoNameUnknown := by
  constructor <;> decide

/-- C4: with the `devcontainer` CLI installed and the external tool
treating "nothing to tear down" as success (the collaborator contract of
spec sections 4.4 and 6), `kill <name>` succeeds for every name even when
no session exists under the derived safe identifier. -/
theorem kill_absent_session_succeeds (env : Env) (st : St) (name : String)
    (hdev : env.devInstalled = true)
    (hdown : env.devDownResult false = true)
    (habs : sanitize_podman_name name ∉ st.sessions) :
    kill_session env st name =
      .ok ({ st with sessions := st.sessions.erase (sanitize_podman_name name) },
           [Ev.downRun (sanitize_podman_name name)]) := by
  unfold kill_session
  have hv := sanitize_output_always_valid name
  have hmem : decide (sanitize_podman_name name ∈ st.sessions) = false :=
    decide_eq_false habs
  simp [hv, hdev, hmem, hdown]

/-- Witness for C4 at a concrete world: killing the never-created session
`ghost` in the empty state succeeds. -/
theorem kill_absent_session_succeeds_witness :
    kill_session baseEnv st0 "ghost" =
      .ok ({ st0 with sessions := st0.sessions.erase (sanitize_podman_name "ghost") },
           [Ev.downRun (sanitize_podman_name "ghost")]) :=
  kill_absent_session_succeeds baseEnv st0 "ghost" rfl rfl (by decide)

/-- The healthy world with `HOME=/home/user`, repository `/repo`. -/
def envEvil : Env :=
  { baseEnv with home := "/home/user", repoRoot := some (RPath.mk true ["repo"]) }

/-- External state in which the branch `/evil` already exists. -/
def stEvil : St := ⟨["/evil"], true, [], [], []⟩

/-- C6 counterexample: for the raw session name `/evil` the claim fails.
Rust `Path::join` replaces the whole path when its argument is absolute,
so the computed worktree path is `/evil`, not a strict descendant of
`<home>/worktrees/<repository name>/`; and `open` does reach this
computation when the branch pre-exists, creating the directory `/evil`. -/
theorem worktree_path_escapes_root :
    semDescStrict (worktreePathOf "/home/user" "repo" "/evil")
      (worktreeRootOf "/home/user" "repo") = false ∧
    open_session envEvil stEvil "/evil" none Config.default =
      .ok (⟨["/evil"], true, [RPath.mk true ["evil"]], ["s-evil"],
            [RPath.mk true ["evil"]]⟩,
           [Ev.dirCreated (RPath.mk true ["evil"]),
            Ev.sessionCreated "s-evil", Ev.worktreeAddRun "/evil",
            Ev.execRun "s-evil"]) := by
  constructor <;> decide

/-- C6 amended: for every raw session name that is a nonempty relative
path with no `.` or `..` components, and whenever the repository root does
not itself lie under the per-repository worktree root, the worktree path
computed by `open` (main.rs lines 247-249) points strictly below
`<home>/worktrees/<repository name>/` and never at the repository root. -/
theorem worktree_path_under_root (home repoName name : String) (repoRoot : RPath)
    (hrel : (parsePath name).absolute = false)
    (hne : (parsePath name).comps ≠ [])
    (hclean : ∀ d ∈ (parsePath name).comps, d ≠ "." ∧ d ≠ "..")
    (hout : semDesc repoRoot (worktreeRootOf home repoName) = false) :
    semDescStrict (worktreePathOf home repoName name)
      (worktreeRootOf home repoName) = true ∧
    semEq (worktreePathOf home repoName name) repoRoot = false := by
  have hpath : worktreePathOf home repoName name =
      ⟨(worktreeRootOf home repoName).absolute,
       (worktreeRootOf home repoName).comps ++ (parsePath name).comps⟩ := by
    unfold worktreePathOf RPath.joinStr
    rw [if_neg (by simp [hrel])]
  have habs : (worktreePathOf home repoName name).absolute =
      (worktreeRootOf home repoName).absolute := by rw [hpath]
  have hcomps : (worktreePathOf home repoName name).comps =
      (worktreeRootOf home repoName).comps ++ (parsePath name).comps := by rw [hpath]
  have hnorm : normComps (worktreePathOf home repoName name).comps =
      normComps (worktreeRootOf home repoName).comps ++ (parsePath name).comps := by
    rw [hcomps]
    exact normComps_append_clean _ _ hclean
  have hdesc : semDesc (worktreePathOf home repoName name)
      (worktreeRootOf home repoName) = true := by
    unfold semDesc
    rw [hnorm, habs, Bool.and_eq_true]
    exact ⟨by simp, leadsTo_append _ _⟩
  have hneq : semEq (worktreePathOf home repoName name)
      (worktreeRootOf home repoName) = false := by
    unfold semEq
    rw [hnorm, Bool.and_eq_false_iff]
    right
    rw [beq_eq_false_iff_ne]
    intro hcontra
    have hlen := congrArg List.length hcontra
    simp only [List.length_append] at hlen
    have hzero : (parsePath name).comps.length = 0 := by omega
    exact hne (List.length_eq_zero.mp hzero)
  refine ⟨by simp [semDescStrict, hdesc, hneq], ?_⟩
  by_contra hcon
  rw [Bool.not_eq_false] at hcon
  unfold semEq at hcon
  rw [Bool.and_eq_true, beq_iff_eq, beq_iff_eq] at hcon
  have hdesc2 : semDesc repoRoot (worktreeRootOf home repoName) = true := by
    unfold semDesc
    rw [Bool.and_eq_true, beq_iff_eq]
    refine ⟨by rw [← hcon.1, habs], ?_⟩
    rw [← hcon.2, hnorm]
    exact leadsTo_append _ _
  rw [hdesc2] at hout
  exact Bool.true_eq_false.mp hout

/-- Witness for the amended C6 at a concrete world: name `a/b` under
`HOME=/h`, repository `/x` named `r`. -/
theorem worktree_path_under_root_witness :
    semDescStrict (worktreePathOf "/h" "r" "a/b") (worktreeRootOf "/h" "r") = true ∧
    semEq (worktreePathOf "/h" "r" "a/b") (RPath.mk true ["x"]) = false :=
  worktree_path_under_root "/h" "r" "a/b" (RPath.mk true ["x"])
    (by decide) (by decide) (by decide) (by decide)

/-! ### Stage lemmas for symbolic runs of open_session -/

theorem ensure_branch_exists (env : Env) (st : St) (config : Config) (name : String)
    (rr : RPath) (hgit : env.gitInstalled = true) (hroot : env.repoRoot = some rr)
    (hbr : name ∈ st.branches) (horig : st.originRemote = true) :
    ensure_git_setup env st config name = .ok (st, []) := by
  unfold ensure_git_setup
  simp [hgit, hroot, hbr, horig]

theorem ensure_branch_created (env : Env) (st : St) (config : Config) (name : String)
    (rr : RPath) (hgit : env.gitInstalled = true) (hroot : env.repoRoot = some rr)
    (hbr : name ∉ st.branches) (hok : env.branchCreateOk name = true)
    (horig : st.originRemote = true) :
    ensure_git_setup env st config name =
      .ok ({ st with branches := name :: st.branches }, [Ev.branchCreated name]) := by
  unfold ensure_git_setup
  simp [hgit, hroot, hbr, hok, horig]

theorem repoNameStep_ok (env : Env) (rr : RPath) (rn : String)
    (hgit : env.gitInstalled = true) (hroot : env.repoRoot = some rr)
    (hrn : rr.comps.getLast? = some rn) :
    repoNameStep env = .ok rn := by
  unfold repoNameStep
  simp [hgit, hroot, hrn]

theorem sessionUp_fresh (env : Env) (st : St) (podman name : String) (wp : RPath)
    (v : DevJson) (hdesc : env.descriptor = some v) (hok : descriptorOk v = true)
    (hnb : v.build = none) (hdev : env.devInstalled = true) (hup : env.devUpOk = true)
    (hwa : env.worktreeAddOk = true) (hex : env.devExecOk = true)
    (hsess : podman ∉ st.sessions) (hlink : wp ∉ st.gitLinked) :
    sessionUp env st podman name wp =
      .ok ({ st with sessions := podman :: st.sessions,
                     gitLinked := wp :: st.gitLinked },
           [Ev.sessionCreated podman, Ev.worktreeAddRun name, Ev.execRun podman]) := by
  unfold sessionUp
  simp [hdesc, hok, hnb, hdev, hup, hwa, hex, hsess, hlink]

theorem sessionUp_fresh_build (env : Env) (st : St) (podman name : String) (wp : RPath)
    (v : DevJson) (b : BuildJson) (hdesc : env.descriptor = some v)
    (hok : descriptorOk v = true) (hb : v.build = some b)
    (hdev : env.devInstalled = true) (hbok : env.devBuildOk = true)
    (hup : env.devUpOk = true) (hwa : env.worktreeAddOk = true)
    (hex : env.devExecOk = true) (hsess : podman ∉ st.sessions)
    (hlink : wp ∉ st.gitLinked) :
    sessionUp env st podman name wp =
      .ok ({ st with sessions := podman :: st.sessions,
                     gitLinked := wp :: st.gitLinked },
           [Ev.buildRun (buildArgs wp), Ev.sessionCreated podman,
            Ev.worktreeAddRun name, Ev.execRun podman]) := by
  unfold sessionUp
  simp [hdesc, hok, hb, hdev, hbok, hup, hwa, hex, hsess, hlink]

theorem sessionUp_attach (env : Env) (st : St) (podman name : String) (wp : RPath)
    (v : DevJson) (hdesc : env.descriptor = some v) (hok : descriptorOk v = true)
    (hnb : v.build = none) (hdev : env.devInstalled = true) (hup : env.devUpOk = true)
    (hex : env.devExecOk = true) (hsess : podman ∈ st.sessions)
    (hlink : wp ∈ st.gitLinked) :
    sessionUp env st podman name wp =
      .ok (st, [Ev.sessionAttached podman, Ev.execRun podman]) := by
  unfold sessionUp
  simp [hdesc, hok, hnb, hdev, hup, hex, hsess, hlink]

/-! ### Claim C5: descriptor build parsing -/

/-- The worktree path for session `b` in the `baseEnv` world. -/
def wpB : RPath := RPath.mk true ["h", "worktrees", "r", "b"]

/-- The healthy world with descriptor `{"build": {"dockerfile": "Dockerfile"}}`. -/
def envBuildDockerfile : Env :=
  { baseEnv with descriptor := some ⟨none, some ⟨some "Dockerfile", none⟩⟩ }

/-- The healthy world with descriptor `{"build": {}}`: no `dockerfile`
field at all. -/
def envBuildBare : Env :=
  { baseEnv with descriptor := some ⟨none, some ⟨none, none⟩⟩ }

/-- External state in which branch `b` already exists. -/
def stB : St := ⟨["b"], true, [], [], []⟩

/-- C5 counterexample: the code never extracts a `Build` variant. The
spec-mandated resolution rejects `{"build": {}}` (dockerfile required),
but the code accepts it and behaves identically to
`{"build": {"dockerfile": "Dockerfile"}}`; and the image-build step is
invoked with only the worktree path, not with the resolved
dockerfile/context paths. -/
theorem build_fields_never_extracted :
    resolveDescriptorSpec (parsePath ".devcontainer") ⟨none, some ⟨none, none⟩⟩ = none ∧
    descriptorOk ⟨none, some ⟨none, none⟩⟩ = true ∧
    open_session envBuildDockerfile stB "b" none Config.default =
      open_session envBuildBare stB "b" none Config.default ∧
    open_session envBuildDockerfile stB "b" none Config.default =
      .ok (⟨["b"], true, [wpB], ["b"], [wpB]⟩,
           [Ev.dirCreated wpB,
            Ev.buildRun ["build", "--workspace-folder", "/h/worktrees/r/b"],
            Ev.sessionCreated "b", Ev.worktreeAddRun "b", Ev.execRun "b"]) ∧
    (buildArgs wpB).contains
      (pathToString ((parsePath ".devcontainer").joinStr "Dockerfile")) = false := by
  refine ⟨by decide, by decide, by decide, by decide, by decide⟩

/-- C5 amended: a descriptor with a `build` object (and no `image`) is
accepted without inspecting the build object's fields, and the image-build
step is invoked as `devcontainer build --workspace-folder <worktree
path>`; dockerfile/context extraction and resolution are left entirely to
the external devcontainer CLI. -/
theorem build_step_gets_workspace_folder (env : Env) (st : St) (name : String)
    (config : Config) (rr : RPath) (rn : String) (v : DevJson) (b : BuildJson)
    (hgit : env.gitInstalled = true) (hroot : env.repoRoot = some rr)
    (hrn : rr.comps.getLast? = some rn) (hbr : name ∈ st.branches)
    (horig : st.originRemote = true) (hdesc : env.descriptor = some v)
    (hb : v.build = some b) (hdev : env.devInstalled = true)
    (hbok : env.devBuildOk = true) (hup : env.devUpOk = true)
    (hwa : env.worktreeAddOk = true) (hex : env.devExecOk = true)
    (hdirs : worktreePathOf env.home rn name ∉ st.dirs)
    (hsess : sanitize_podman_name name ∉ st.sessions)
    (hlink : worktreePathOf env.home rn name ∉ st.gitLinked) :
    descriptorOk v = true ∧
    open_session env st name none config =
      .ok ({ st with dirs := worktreePathOf env.home rn name :: st.dirs,
                     sessions := sanitize_podman_name name :: st.sessions,
                     gitLinked := worktreePathOf env.home rn name :: st.gitLinked },
           [Ev.dirCreated (worktreePathOf env.home rn name),
            Ev.buildRun (buildArgs (worktreePathOf env.home rn name)),
            Ev.sessionCreated (sanitize_podman_name name),
            Ev.worktreeAddRun name,
            Ev.execRun (sanitize_podman_name name)]) ∧
    buildArgs (worktreePathOf env.home rn name) =
      ["build", "--workspace-folder",
       pathToString (worktreePathOf env.home rn name)] := by
  have hok : descriptorOk v = true := by simp [descriptorOk, hb]
  refine ⟨hok, ?_, rfl⟩
  have hE := ensure_branch_exists env st config name rr hgit hroot hbr horig
  have hR := repoNameStep_ok env rr rn hgit hroot hrn
  have hv := sanitize_output_always_valid name
  have hS := sessionUp_fresh_build env
    { st with dirs := worktreePathOf env.home rn name :: st.dirs }
    (sanitize_podman_name name) name (worktreePathOf env.home rn name) v b
    hdesc hok hb hdev hbok hup hwa hex hsess hlink
  unfold open_session
  rw [hE]
  simp only [hv, Bool.true_eq_false, if_false, hR, findDevStep]
  rw [if_neg hdirs]
  simp only [hS]
  simp

/-- Witness for the amended C5 at a concrete world: descriptor
`{"build": {"dockerfile": "Dockerfile"}}`, session `b`. -/
theorem build_step_gets_workspace_folder_witness :
    open_session envBuildDockerfile stB "b" none Config.default =
      .ok ({ stB with
               dirs := worktreePathOf envBuildDockerfile.home "r" "b" :: stB.dirs,
               sessions := sanitize_podman_name "b" :: stB.sessions,
               gitLinked := worktreePathOf envBuildDockerfile.home "r" "b" :: stB.gitLinked },
           [Ev.dirCreated (worktreePathOf envBuildDockerfile.home "r" "b"),
            Ev.buildRun (buildArgs (worktreePathOf envBuildDockerfile.home "r" "b")),
            Ev.sessionCreated (sanitize_podman_name "b"),
            Ev.worktreeAddRun "b",
            Ev.execRun (sanitize_podman_name "b")]) ∧
    buildArgs (worktreePathOf envBuildDockerfile.home "r" "b") =
      ["build", "--workspace-folder",
       pathToString (worktreePathOf envBuildDockerfile.home "r" "b")] :=
  (build_step_gets_workspace_folder envBuildDockerfile stB "b" Config.default
    (RPath.mk true ["r"]) "r" ⟨none, some ⟨some "Dockerfile", none⟩⟩
    ⟨some "Dockerfile", none⟩ rfl rfl rfl (by decide) rfl rfl rfl rfl rfl rfl
    rfl rfl (by decide) (by decide) (by decide)).2

/-! ### Claim C8: distinct reporting of "tool not installed" -/

/-- The healthy world with the `git` executable missing from `PATH`. -/
def envGitMissing : Env := { baseEnv with gitInstalled := false }

/-- The healthy world with the `devcontainer` executable missing. -/
def envDevMissing : Env := { baseEnv with devInstalled := false }

theorem sessionUp_no_dev (env : Env) (st : St) (podman name : String) (wp : RPath)
    (v : DevJson) (hdesc : env.descriptor = some v) (hok : descriptorOk v = true)
    (hnb : v.build = none) (hdev : env.devInstalled = false) :
    sessionUp env st podman name wp = .error Err.devNotFound := by
  unfold sessionUp
  simp [hdesc, hok, hnb, hdev]

/-- C8 counterexample: the claim fails for the git invocations. The
repository-root probe in `ensure_git_setup` (main.rs lines 59-68) treats a
spawn failure ("executable cannot be found") and a non-zero exit
identically — both fall into the silent `_ => return Ok(())` arm — so the
two conditions are not reported distinctly; and the re-run of the probe in
`open_session` (lines 237-240) propagates the raw spawn error via `?`
instead of the distinct "command not found" wording used for
`devcontainer`. -/
theorem git_spawn_not_distinct :
    ensure_git_setup envGitMissing st0 Config.default "b" = .ok (st0, []) ∧
    ensure_git_setup envNoRepo st0 Config.default "b" = .ok (st0, []) ∧
    open_session envGitMissing st0 "b" none Config.default =
      .error (Err.spawnFailed "git") ∧
    decide (Err.spawnFailed "git" = Err.devNotFound) = false := by
  refine ⟨by decide, by decide, by decide, by decide⟩

/-- C8 amended: only `devcontainer` invocations report "executable cannot
be found" as the distinct, consistently-worded condition ("devcontainer
command not found. Please install @devcontainers/cli"), different from
"ran and returned non-zero"; the git and gh invocations either merge the
two conditions silently or propagate the raw spawn error. -/
theorem devcontainer_spawn_reported_distinctly (env : Env) (st : St) (name : String)
    (config : Config) (rr : RPath) (rn : String) (v : DevJson)
    (hdev : env.devInstalled = false)
    (hgit : env.gitInstalled = true) (hroot : env.repoRoot = some rr)
    (hrn : rr.comps.getLast? = some rn) (hbr : name ∈ st.branches)
    (horig : st.originRemote = true) (hdesc : env.descriptor = some v)
    (hok : descriptorOk v = true) (hnb : v.build = none) :
    open_session env st name none config = .error Err.devNotFound ∧
    kill_session env st name = .error Err.devNotFound ∧
    decide (Err.devNotFound = Err.devUpFailed) = false ∧
    decide (Err.devNotFound = Err.devDownFailed) = false := by
  have hv := sanitize_output_always_valid name
  have hE := ensure_branch_exists env st config name rr hgit hroot hbr horig
  have hR := repoNameStep_ok env rr rn hgit hroot hrn
  refine ⟨?_, ?_, by decide, by decide⟩
  · unfold open_session
    rw [hE]
    simp only [hv, Bool.true_eq_false, if_false, hR, findDevStep]
    by_cases hd : worktreePathOf env.home rn name ∈ st.dirs
    · rw [if_pos hd]
      simp only [sessionUp_no_dev env st (sanitize_podman_name name) name
        (worktreePathOf env.home rn name) v hdesc hok hnb hdev]
    · rw [if_neg hd]
      simp only [sessionUp_no_dev env
        { st with dirs := worktreePathOf env.home rn name :: st.dirs }
        (sanitize_podman_name name) name (worktreePathOf env.home rn name) v
        hdesc hok hnb hdev]
  · unfold kill_session
    simp [hv, hdev]

/-- Witness for the amended C8 at a concrete world: with `devcontainer`
missing, both `open b` and `kill b` report the distinct not-found error. -/
theorem devcontainer_spawn_reported_distinctly_witness :
    open_session envDevMissing stB "b" none Config.default =
      .error Err.devNotFound ∧
    kill_session envDevMissing stB "b" = .error Err.devNotFound :=
  ⟨(devcontainer_spawn_reported_distinctly envDevMissing stB "b" Config.default
      (RPath.mk true ["r"]) "r" ⟨some "docker.io/library/ubuntu:latest", none⟩
      rfl rfl rfl rfl (by decide) rfl rfl rfl rfl).1,
   (devcontainer_spawn_reported_distinctly envDevMissing stB "b" Config.default
      (RPath.mk true ["r"]) "r" ⟨some "docker.io/library/ubuntu:latest", none⟩
      rfl rfl rfl rfl (by decide) rfl rfl rfl rfl).2.1⟩

/-! ### Claim C9: the invalid-name bail is dead code -/

/-- Classifies a handler result as the "invalid session name" bail. -/
def isInvalidNameErr : Except Err (St × List Ev) → Bool
  | .error (.invalidSessionName _) => true
  | _ => false

theorem ensure_no_invalid_name (env : Env) (st : St) (config : Config) (b : String) :
    isInvalidNameErr (ensure_git_setup env st config b) = false := by
  cases hg : env.gitInstalled <;>
  rcases hr : env.repoRoot with _ | rr <;>
  by_cases hb : b ∈ st.branches <;>
  cases hk : env.branchCreateOk b <;>
  cases ho : st.originRemote <;>
  rcases hgh : config.githuborg with _ | org <;>
  cases hi : env.ghInstalled <;>
  cases hc : env.ghCreateOk <;>
  simp [ensure_git_setup, hg, hr, hb, hk, ho, hgh, hi, hc, isInvalidNameErr]

theorem repoNameStep_errors (env : Env) (e : Err) (h : repoNameStep env = .error e) :
    e = Err.spawnFailed "git" ∨ e = Err.repoNameUnknown := by
  by_cases hg : env.gitInstalled = false
  · left
    simp only [repoNameStep, hg, if_true] at h
    exact (Except.error.inj h).symm
  · simp only [repoNameStep, hg, if_false] at h
    rcases hl : (match env.repoRoot with
      | some r => r
      | none => RPath.mk false []).comps.getLast? with _ | rn
    · right
      rw [hl] at h
      exact (Except.error.inj h).symm
    · rw [hl] at h
      cases h

theorem findDevStep_errors (env : Env) (devEnvArg : Option String) (e : Err)
    (h : findDevStep env devEnvArg = .error e) : ∃ s, e = Err.devEnvMissing s := by
  rcases devEnvArg with _ | s
  · simp only [findDevStep] at h
    cases h
  · simp only [findDevStep] at h
    by_cases hx : env.devEnvExists = true
    · rw [if_pos hx] at h
      cases h
    · rw [if_neg hx] at h
      exact ⟨s, (Except.error.inj h).symm⟩

theorem sessionUp_no_invalid_name (env : Env) (st : St) (podman name : String)
    (wp : RPath) : isInvalidNameErr (sessionUp env st podman name wp) = false := by
  rcases hd : env.descriptor with _ | v
  · simp [sessionUp, hd, isInvalidNameErr]
  · by_cases hok : descriptorOk v = true <;>
    rcases hb : v.build with _ | b <;>
    cases hdev : env.devInstalled <;>
    cases hbok : env.devBuildOk <;>
    cases hup : env.devUpOk <;>
    by_cases hs : podman ∈ st.sessions <;>
    by_cases hl : wp ∈ st.gitLinked <;>
    cases hwa : env.worktreeAddOk <;>
    cases hex : env.devExecOk <;>
    simp [sessionUp, hd, hok, hb, hdev, hbok, hup, hs, hl, hwa, hex, isInvalidNameErr]

theorem open_no_invalid_name (env : Env) (st : St) (name : String)
    (devEnvArg : Option String) (config : Config) :
    isInvalidNameErr (open_session env st name devEnvArg config) = false := by
  unfold open_session
  cases hE : ensure_git_setup env st config name with
  | error e =>
    have h := ensure_no_invalid_name env st config name
    rw [hE] at h
    exact h
  | ok p =>
    obtain ⟨st1, ev1⟩ := p
    have hv := sanitize_output_always_valid name
    simp only [hv, Bool.true_eq_false, if_false]
    cases hR : repoNameStep env with
    | error e =>
      rcases repoNameStep_errors env e hR with h | h <;> subst h <;> rfl
    | ok rn =>
      dsimp only
      cases hF : findDevStep env devEnvArg with
      | error e =>
        obtain ⟨s, hs⟩ := findDevStep_errors env devEnvArg e hF
        subst hs
        rfl
      | ok u =>
        dsimp only
        cases hS : sessionUp env
            (if worktreePathOf env.home rn name ∈ st1.dirs then (st1, ev1)
             else ({ st1 with dirs := worktreePathOf env.home rn name :: st1.dirs },
                   ev1 ++ [Ev.dirCreated (worktreePathOf env.home rn name)])).1
            (sanitize_podman_name name) name (worktreePathOf env.home rn name) with
        | error e =>
          have h := sessionUp_no_invalid_name env
            (if worktreePathOf env.home rn name ∈ st1.dirs then (st1, ev1)
             else ({ st1 with dirs := worktreePathOf env.home rn name :: st1.dirs },
                   ev1 ++ [Ev.dirCreated (worktreePathOf env.home rn name)])).1
            (sanitize_podman_name name) name (worktreePathOf env.home rn name)
          rw [hS] at h
          exact h
        | ok q =>
          obtain ⟨st5, ev5⟩ := q
          rfl

theorem kill_no_invalid_name (env : Env) (st : St) (name : String) :
    isInvalidNameErr (kill_session env st name) = false := by
  have hv := sanitize_output_always_valid name
  cases hd : env.devInstalled <;>
  cases hr : env.devDownResult (decide (sanitize_podman_name name ∈ st.sessions)) <;>
  simp [kill_session, hv, hd, hr, isInvalidNameErr]

/-- C9: for every input name and every world, the "invalid session name"
error branch in `open_session` (main.rs lines 231-234) and in
`kill_session` (lines 366-369) never fires: the name checked there is
always the output of `sanitize_podman_name`, which always passes
`valid_podman_name`, and no other part of either handler produces that
error. -/
theorem invalid_name_bail_never_fires (env : Env) (st : St) (name : String)
    (devEnvArg : Option String) (config : Config) :
    isInvalidNameErr (open_session env st name devEnvArg config) = false ∧
    isInvalidNameErr (kill_session env st name) = false :=
  ⟨open_no_invalid_name env st name devEnvArg config,
   kill_no_invalid_name env st name⟩

/-! ### Claim C7: precheck accumulates every problem -/

/-- C7: `precheck` succeeds exactly when no problem is detected; when it
fails it fails once, reporting the entire accumulated problem list; and
that list contains an entry for each missing tool among `devcontainer`,
`git`, `gh` and for the config-file problem, regardless of which other
problems are present. -/
theorem precheck_reports_everything (env : Env) :
    (precheck env = .ok () ↔ precheckProblems env = []) ∧
    (∀ es, precheck env = .error es → es = precheckProblems env) ∧
    (env.devInstalled = false →
      Problem.toolMissing "devcontainer" ∈ precheckProblems env) ∧
    (env.gitInstalled = false →
      Problem.toolMissing "git" ∈ precheckProblems env) ∧
    (env.ghInstalled = false →
      Problem.toolMissing "gh" ∈ precheckProblems env) ∧
    (env.projDirs = true → env.configFile = some none →
      Problem.configUnparsable ∈ precheckProblems env) ∧
    (env.projDirs = true → env.configFile = none →
      Problem.configMissing ∈ precheckProblems env) := by
  refine ⟨?_, ?_, ?_, ?_, ?_, ?_, ?_⟩
  · unfold precheck
    by_cases h : precheckProblems env = [] <;> simp [h]
  · intro es h
    unfold precheck at h
    by_cases hp : precheckProblems env = []
    · rw [if_pos hp] at h
      cases h
    · rw [if_neg hp] at h
      exact (Except.error.inj h).symm
  · intro h
    simp [precheckProblems, h]
  · intro h
    simp [precheckProblems, h]
  · intro h
    simp [precheckProblems, h]
  · intro hp hc
    simp [precheckProblems, configProblems, hp, hc]
  · intro hp hc
    simp [precheckProblems, configProblems, hp, hc]

/-- The world with all three tools missing and an unparseable config. -/
def envAllBad : Env :=
  { baseEnv with gitInstalled := false, ghInstalled := false,
                 devInstalled := false, configFile := some none }

/-- Witness for C7 at a concrete world: with everything missing, the
accumulated report contains all four problems. -/
theorem precheck_reports_everything_witness :
    Problem.toolMissing "devcontainer" ∈ precheckProblems envAllBad ∧
    Problem.toolMissing "git" ∈ precheckProblems envAllBad ∧
    Problem.toolMissing "gh" ∈ precheckProblems envAllBad ∧
    Problem.configUnparsable ∈ precheckProblems envAllBad :=
  ⟨(precheck_reports_everything envAllBad).2.2.1 rfl,
   (precheck_reports_everything envAllBad).2.2.2.1 rfl,
   (precheck_reports_everything envAllBad).2.2.2.2.1 rfl,
   (precheck_reports_everything envAllBad).2.2.2.2.2.1 rfl rfl⟩

/-! ### Claim C10: configuration loading is total -/

/-- C10: `load_config` is total: a missing or unreadable file and a file
that fails TOML parsing all silently yield the default configuration
(`githuborg` absent, so remote provisioning is skipped), `open` behaves
exactly as with the default configuration — it can never fail because of a
malformed configuration file — and only `precheck` surfaces the problem. -/
theorem load_config_never_fails (env : Env) (st : St) (name : String)
    (devEnvArg : Option String)
    (hbad : env.configFile = some none ∨ env.configFile = none) :
    load_config env = Config.default ∧
    (load_config env).githuborg = none ∧
    open_session env st name devEnvArg (load_config env) =
      open_session env st name devEnvArg Config.default ∧
    (env.projDirs = true → env.configFile = some none →
      precheck env = .error (precheckProblems env) ∧
      Problem.configUnparsable ∈ precheckProblems env) := by
  have hlc : load_config env = Config.default := by
    rcases hbad with h | h <;> cases hp : env.projDirs <;> simp [load_config, h, hp]
  refine ⟨hlc, by rw [hlc]; rfl, by rw [hlc], ?_⟩
  intro hp hc
  have hmem : Problem.configUnparsable ∈ precheckProblems env := by
    simp [precheckProblems, configProblems, hp, hc]
  have hne : precheckProblems env ≠ [] := by
    intro hnil
    rw [hnil] at hmem
    cases hmem
  exact ⟨by unfold precheck; rw [if_neg hne], hmem⟩

/-- The healthy world whose config file exists but fails TOML parsing. -/
def envCfgBad : Env := { baseEnv with configFile := some none }

/-- Witness for C10 at a concrete world: an unparseable config yields the
default configuration while precheck reports it. -/
theorem load_config_never_fails_witness :
    load_config envCfgBad = Config.default ∧
    open_session envCfgBad st0 "n" none (load_config envCfgBad) =
      open_session envCfgBad st0 "n" none Config.default ∧
    precheck envCfgBad = .error (precheckProblems envCfgBad) :=
  ⟨(load_config_never_fails envCfgBad st0 "n" none (Or.inl rfl)).1,
   (load_config_never_fails envCfgBad st0 "n" none (Or.inl rfl)).2.2.1,
   ((load_config_never_fails envCfgBad st0 "n" none (Or.inl rfl)).2.2.2 rfl rfl).1⟩

/-! ### Claim C1: opening twice creates once -/

/-- C1: for every session name and repository (in a world where git and
devcontainer are installed and succeed, the branch, worktree directory and
session do not yet exist, and an `origin` remote is configured), running
`open <name>` twice in succession performs exactly one git branch
creation, exactly one worktree directory creation, and exactly one session
creation; the second run's `devcontainer up` step (whose idempotent
existence check is the external tool's contract per spec section 4.4)
observes the session already exists under the safe identifier, attaches
instead of creating, does not error, and proceeds to the interactive
attach (`exec`). The second run leaves the external state unchanged. -/
theorem open_twice_single_creation (env : Env) (st : St) (name : String)
    (config : Config) (rr : RPath) (rn : String) (v : DevJson)
    (hgit : env.gitInstalled = true)
    (hroot : env.repoRoot = some rr)
    (hrn : rr.comps.getLast? = some rn)
    (hbr : name ∉ st.branches)
    (hbrok : env.branchCreateOk name = true)
    (horig : st.originRemote = true)
    (hdesc : env.descriptor = some v)
    (hok : descriptorOk v = true)
    (hnb : v.build = none)
    (hdev : env.devInstalled = true)
    (hup : env.devUpOk = true)
    (hwa : env.worktreeAddOk = true)
    (hex : env.devExecOk = true)
    (hdirs : worktreePathOf env.home rn name ∉ st.dirs)
    (hsess : sanitize_podman_name name ∉ st.sessions)
    (hlink : worktreePathOf env.home rn name ∉ st.gitLinked) :
    ∃ st1 tr1 st2 tr2,
      open_session env st name none config = .ok (st1, tr1) ∧
      open_session env st1 name none config = .ok (st2, tr2) ∧
      st2 = st1 ∧
      countEv (Ev.branchCreated name) (tr1 ++ tr2) = 1 ∧
      countEv (Ev.dirCreated (worktreePathOf env.home rn name)) (tr1 ++ tr2) = 1 ∧
      countEv (Ev.sessionCreated (sanitize_podman_name name)) (tr1 ++ tr2) = 1 ∧
      countEv (Ev.sessionCreated (sanitize_podman_name name)) tr2 = 0 ∧
      Ev.sessionAttached (sanitize_podman_name name) ∈ tr2 ∧
      Ev.execRun (sanitize_podman_name name) ∈ tr2 := by
  have hv := sanitize_output_always_valid name
  have hE1 := ensure_branch_created env st config name rr hgit hroot hbr hbrok horig
  have hR := repoNameStep_ok env rr rn hgit hroot hrn
  have hS1 := sessionUp_fresh env
    { st with branches := name :: st.branches,
              dirs := worktreePathOf env.home rn name :: st.dirs }
    (sanitize_podman_name name) name (worktreePathOf env.home rn name) v
    hdesc hok hnb hdev hup hwa hex hsess hlink
  have h1 : open_session env st name none config =
      .ok ({ st with branches := name :: st.branches,
                     dirs := worktreePathOf env.home rn name :: st.dirs,
                     sessions := sanitize_podman_name name :: st.sessions,
                     gitLinked := worktreePathOf env.home rn name :: st.gitLinked },
           [Ev.branchCreated name,
            Ev.dirCreated (worktreePathOf env.home rn name),
            Ev.sessionCreated (sanitize_podman_name name),
            Ev.worktreeAddRun name,
            Ev.execRun (sanitize_podman_name name)]) := by
    unfold open_session
    rw [hE1]
    simp only [hv, Bool.true_eq_false, if_false, hR, findDevStep]
    rw [if_neg (show worktreePathOf env.home rn name ∉
      (({ st with branches := name :: st.branches } : St)).dirs from hdirs)]
    simp only [hS1]
    simp
  have hE2 := ensure_branch_exists env
    { st with branches := name :: st.branches,
              dirs := worktreePathOf env.home rn name :: st.dirs,
              sessions := sanitize_podman_name name :: st.sessions,
              gitLinked := worktreePathOf env.home rn name :: st.gitLinked }
    config name rr hgit hroot (List.mem_cons_self name st.branches) horig
  have hS2 := sessionUp_attach env
    { st with branches := name :: st.branches,
              dirs := worktreePathOf env.home rn name :: st.dirs,
              sessions := sanitize_podman_name name :: st.sessions,
              gitLinked := worktreePathOf env.home rn name :: st.gitLinked }
    (sanitize_podman_name name) name (worktreePathOf env.home rn name) v
    hdesc hok hnb hdev hup hex
    (List.mem_cons_self (sanitize_podman_name name) st.sessions)
    (List.mem_cons_self (worktreePathOf env.home rn name) st.gitLinked)
  have h2 : open_session env
      { st with branches := name :: st.branches,
                dirs := worktreePathOf env.home rn name :: st.dirs,
                sessions := sanitize_podman_name name :: st.sessions,
                gitLinked := worktreePathOf env.home rn name :: st.gitLinked }
      name none config =
      .ok ({ st with branches := name :: st.branches,
                     dirs := worktreePathOf env.home rn name :: st.dirs,
                     sessions := sanitize_podman_name name :: st.sessions,
                     gitLinked := worktreePathOf env.home rn name :: st.gitLinked },
           [Ev.sessionAttached (sanitize_podman_name name),
            Ev.execRun (sanitize_podman_name name)]) := by
    unfold open_session
    rw [hE2]
    simp only [hv, Bool.true_eq_false, if_false, hR, findDevStep]
    rw [if_pos (List.mem_cons_self (worktreePathOf env.home rn name) st.dirs)]
    simp only [hS2]
    simp
  refine ⟨_, _, _, _, h1, h2, rfl, ?_, ?_, ?_, ?_, ?_, ?_⟩ <;>
    simp [countEv]

/-- Witness for C1 at a concrete world: opening session `b` twice from the
empty state in the healthy world. -/
theorem open_twice_single_creation_witness :
    ∃ st1 tr1 st2 tr2,
      open_session baseEnv st0 "b" none Config.default = .ok (st1, tr1) ∧
      open_session baseEnv st1 "b" none Config.default = .ok (st2, tr2) ∧
      st2 = st1 ∧
      countEv (Ev.branchCreated "b") (tr1 ++ tr2) = 1 ∧
      countEv (Ev.dirCreated (worktreePathOf baseEnv.home "r" "b")) (tr1 ++ tr2) = 1 ∧
      countEv (Ev.sessionCreated (sanitize_podman_name "b")) (tr1 ++ tr2) = 1 ∧
      countEv (Ev.sessionCreated (sanitize_podman_name "b")) tr2 = 0 ∧
      Ev.sessionAttached (sanitize_podman_name "b") ∈ tr2 ∧
      Ev.execRun (sanitize_podman_name "b") ∈ tr2 :=
  open_twice_single_creation baseEnv st0 "b" Config.default
    (RPath.mk true ["r"]) "r" ⟨some "docker.io/library/ubuntu:latest", none⟩
    rfl rfl rfl (by decide) rfl rfl rfl rfl rfl rfl rfl rfl rfl
    (by decide) (by decide) (by decide)
